import Mathlib

/-!
Verification of the product-listing utility layer of this repository
(`product_listing_utils.py`): the tolerant JSON extractor (`JSONParser`),
the validation functions, and the price/statistics/batching helpers.

Modelling conventions (shallow embedding):
* Python values that can appear in parsed JSON / product dictionaries are the
  inductive type `PyVal`; Python floats are modelled as exact rationals.
* Fallible Python code returns `Option`/`Except`; a raised exception is the
  `Except.error` constructor, so "never raises" is "always `Except.ok`".
* The three concrete regular expressions used by `extract_from_markdown` are
  embedded as direct string-scanning functions implementing Python `re.search`
  semantics (leftmost match; lazy `.*?` with `re.DOTALL`) for exactly those
  patterns.
-/

/-- A Python value as it appears in this code base: `None`, booleans, ints,
floats (modelled as exact rationals), strings, lists, and string-keyed dicts
(modelled as association lists in insertion order). -/
inductive PyVal where
  | none : PyVal
  | bool : Bool → PyVal
  | int : Int → PyVal
  | float : ℚ → PyVal
  | str : String → PyVal
  | list : List PyVal → PyVal
  | dict : List (String × PyVal) → PyVal

/-- Python truthiness (`bool(v)`): `None`, `False`, zero, and empty
strings/lists/dicts are falsy, everything else truthy. -/
def PyVal.truthy : PyVal → Bool
  | .none => false
  | .bool b => b
  | .int n => !(n == 0)
  | .float q => !(q == 0)
  | .str s => !(s == "")
  | .list xs => !xs.isEmpty
  | .dict kvs => !kvs.isEmpty

/-- JSON whitespace as accepted by `json.loads` between tokens. -/
def jsonWs (c : Char) : Bool :=
  c == ' ' || c == '\t' || c == '\n' || c == '\r'

/-- Drop leading JSON whitespace. -/
def skipWs (cs : List Char) : List Char := cs.dropWhile jsonWs

/-- Value of a hexadecimal digit, for `\uXXXX` string escapes. -/
def hexVal (c : Char) : Option ℕ :=
  if '0' ≤ c ∧ c ≤ '9' then Option.some (c.toNat - '0'.toNat)
  else if 'a' ≤ c ∧ c ≤ 'f' then Option.some (c.toNat - 'a'.toNat + 10)
  else if 'A' ≤ c ∧ c ≤ 'F' then Option.some (c.toNat - 'A'.toNat + 10)
  else Option.none

/-- Is `c` a decimal digit. -/
def isDig (c : Char) : Bool := '0' ≤ c && c ≤ '9'

/-- Numeric value of a decimal digit. -/
def digVal (c : Char) : ℕ := c.toNat - '0'.toNat

/-- Natural number denoted by a digit string (most significant first). -/
def natOfDigits (ds : List Char) : ℕ :=
  ds.foldl (fun acc c => 10 * acc + digVal c) 0

/-- Body of a JSON string after the opening quote: returns the decoded
characters and the input remaining after the closing quote.  Mirrors the
strict `json.loads` scanner: the standard escapes are decoded, unescaped
control characters are rejected.  `\uXXXX` is decoded as a single code unit
(surrogate-pair recombination is not modelled; no input in this development
uses `\u`). -/
def parseJStrAux : List Char → Option (List Char × List Char)
  | [] => Option.none
  | '"' :: rest => Option.some ([], rest)
  | '\\' :: '"' :: rest =>
    (parseJStrAux rest).map (fun p => ('"' :: p.1, p.2))
  | '\\' :: '\\' :: rest =>
    (parseJStrAux rest).map (fun p => ('\\' :: p.1, p.2))
  | '\\' :: '/' :: rest =>
    (parseJStrAux rest).map (fun p => ('/' :: p.1, p.2))
  | '\\' :: 'b' :: rest =>
    (parseJStrAux rest).map (fun p => ('\x08' :: p.1, p.2))
  | '\\' :: 'f' :: rest =>
    (parseJStrAux rest).map (fun p => ('\x0c' :: p.1, p.2))
  | '\\' :: 'n' :: rest =>
    (parseJStrAux rest).map (fun p => ('\n' :: p.1, p.2))
  | '\\' :: 'r' :: rest =>
    (parseJStrAux rest).map (fun p => ('\r' :: p.1, p.2))
  | '\\' :: 't' :: rest =>
    (parseJStrAux rest).map (fun p => ('\t' :: p.1, p.2))
  | '\\' :: 'u' :: h1 :: h2 :: h3 :: h4 :: rest =>
    match hexVal h1, hexVal h2, hexVal h3, hexVal h4 with
    | Option.some a, Option.some b, Option.some c, Option.some d =>
      (parseJStrAux rest).map
        (fun p => (Char.ofNat (((a * 16 + b) * 16 + c) * 16 + d) :: p.1, p.2))
    | _, _, _, _ => Option.none
  | '\\' :: _ => Option.none
  | c :: rest =>
    if c.toNat < 0x20 then Option.none
    else (parseJStrAux rest).map (fun p => (c :: p.1, p.2))

/-- Power of ten as a rational, with an integer (possibly negative) exponent. -/
def pow10 (e : Int) : ℚ :=
  if 0 ≤ e then ((10 : ℚ) ^ e.toNat) else ((10 : ℚ) ^ (-e).toNat)⁻¹

/-- A JSON number, following the scanner regex of `json.loads`
(`-?(0|[1-9]\d*)(\.\d+)?([eE][-+]?\d+)?`): the integer part stops after a
leading `0`, a fraction or exponent is consumed only when well formed, and the
result is an `int` exactly when neither a fraction nor an exponent is present.
`NaN`/`Infinity` literals are not modelled (no input here uses them). -/
def parseJNum (cs : List Char) : Option (PyVal × List Char) :=
  let (neg, cs1) : Bool × List Char :=
    match cs with
    | '-' :: rest => (true, rest)
    | _ => (false, cs)
  match cs1 with
  | c :: rest =>
    if isDig c then
      let (intDs, cs2) : List Char × List Char :=
        if c == '0' then (['0'], rest)
        else (c :: rest.takeWhile isDig, rest.dropWhile isDig)
      let (fracDs, cs3) : List Char × List Char :=
        match cs2 with
        | '.' :: fr =>
          let ds := fr.takeWhile isDig
          if ds.isEmpty then ([], cs2) else (ds, fr.dropWhile isDig)
        | _ => ([], cs2)
      let (expDs, expNeg, cs4) : List Char × Bool × List Char :=
        match cs3 with
        | 'e' :: '+' :: ex =>
          let ds := ex.takeWhile isDig
          if ds.isEmpty then ([], false, cs3) else (ds, false, ex.dropWhile isDig)
        | 'e' :: '-' :: ex =>
          let ds := ex.takeWhile isDig
          if ds.isEmpty then ([], false, cs3) else (ds, true, ex.dropWhile isDig)
        | 'e' :: ex =>
          let ds := ex.takeWhile isDig
          if ds.isEmpty then ([], false, cs3) else (ds, false, ex.dropWhile isDig)
        | 'E' :: '+' :: ex =>
          let ds := ex.takeWhile isDig
          if ds.isEmpty then ([], false, cs3) else (ds, false, ex.dropWhile isDig)
        | 'E' :: '-' :: ex =>
          let ds := ex.takeWhile isDig
          if ds.isEmpty then ([], false, cs3) else (ds, true, ex.dropWhile isDig)
        | 'E' :: ex =>
          let ds := ex.takeWhile isDig
          if ds.isEmpty then ([], false, cs3) else (ds, false, ex.dropWhile isDig)
        | _ => ([], false, cs3)
      let sign : ℚ := if neg then -1 else 1
      if fracDs.isEmpty ∧ expDs.isEmpty then
        Option.some (PyVal.int ((if neg then -1 else 1) * (natOfDigits intDs : Int)), cs2)
      else
        let base : ℚ := (natOfDigits intDs : ℚ) +
          (natOfDigits fracDs : ℚ) / ((10 : ℚ) ^ fracDs.length)
        let ex : Int := (if expNeg then -1 else 1) * (natOfDigits expDs : Int)
        Option.some (PyVal.float (sign * base * pow10 ex), cs4)
    else Option.none
  | [] => Option.none

mutual

/-- Recursive-descent JSON value scanner modelling `json.loads`, fuelled by an
upper bound on the nesting work; every recursive call first consumes at least
one character, so fuel `length + 1` never runs out on real input. -/
def parseVal : ℕ → List Char → Option (PyVal × List Char)
  | 0, _ => Option.none
  | fuel + 1, cs =>
    match skipWs cs with
    | '\x7b' :: rest =>
      match skipWs rest with
      | '\x7d' :: r2 => Option.some (PyVal.dict [], r2)
      | rest2 => (parseMembers fuel rest2).map (fun p => (PyVal.dict p.1, p.2))
    | '[' :: rest =>
      match skipWs rest with
      | ']' :: r2 => Option.some (PyVal.list [], r2)
      | rest2 => (parseItems fuel rest2).map (fun p => (PyVal.list p.1, p.2))
    | '"' :: rest => (parseJStrAux rest).map (fun p => (PyVal.str ⟨p.1⟩, p.2))
    | 't' :: 'r' :: 'u' :: 'e' :: rest => Option.some (PyVal.bool true, rest)
    | 'f' :: 'a' :: 'l' :: 's' :: 'e' :: rest => Option.some (PyVal.bool false, rest)
    | 'n' :: 'u' :: 'l' :: 'l' :: rest => Option.some (PyVal.none, rest)
    | cs1 => parseJNum cs1

/-- One or more `"key": value` members of a JSON object, up to and including
the closing brace.  Duplicate keys are kept in order (Python would keep the
last; no input in this development has duplicates). -/
def parseMembers : ℕ → List Char → Option (List (String × PyVal) × List Char)
  | 0, _ => Option.none
  | fuel + 1, cs =>
    match cs with
    | '"' :: rest =>
      match parseJStrAux rest with
      | Option.none => Option.none
      | Option.some (k, r1) =>
        match skipWs r1 with
        | ':' :: r2 =>
          match parseVal fuel r2 with
          | Option.none => Option.none
          | Option.some (v, r3) =>
            match skipWs r3 with
            | ',' :: r4 =>
              (parseMembers fuel (skipWs r4)).map
                (fun p => ((⟨k⟩, v) :: p.1, p.2))
            | '\x7d' :: r4 => Option.some ([(⟨k⟩, v)], r4)
            | _ => Option.none
        | _ => Option.none
    | _ => Option.none

/-- One or more items of a JSON array, up to and including the closing
bracket. -/
def parseItems : ℕ → List Char → Option (List PyVal × List Char)
  | 0, _ => Option.none
  | fuel + 1, cs =>
    match parseVal fuel cs with
    | Option.none => Option.none
    | Option.some (v, r1) =>
      match skipWs r1 with
      | ',' :: r2 => (parseItems fuel r2).map (fun p => (v :: p.1, p.2))
      | ']' :: r2 => Option.some ([v], r2)
      | _ => Option.none

end

/-- Model of `json.loads`: parse one JSON value, allow surrounding whitespace,
and reject trailing non-whitespace ("Extra data").  `Option.none` is the
`json.JSONDecodeError` outcome. -/
def jsonLoads (cs : List Char) : Option PyVal :=
  match parseVal (cs.length + 1) cs with
  | Option.some (v, rest) => if skipWs rest = [] then Option.some v else Option.none
  | Option.none => Option.none

/-- Python `\s` restricted to ASCII, as matched by the `re` patterns in
`JSONParser.extract_from_markdown`. -/
def isPySpace (c : Char) : Bool :=
  c == ' ' || c == '\t' || c == '\n' || c == '\r' || c == '\x0b' || c == '\x0c'

/-- The characters of the interior of a lazy `\{.*?\}` match started just
after an opening brace: everything up to (excluding) the first closing brace,
or `Option.none` when no closing brace follows. -/
def braceTail : List Char → Option (List Char)
  | [] => Option.none
  | c :: rest =>
    if c = '\x7d' then Option.some []
    else (braceTail rest).map (fun b => c :: b)

/-- Leftmost match of the pattern `(\{.*?\})` under `re.DOTALL`: the substring
from the first opening brace to the first closing brace after it.  When the
first opening brace has no closing brace after it, later opening braces cannot
have one either, so the whole search fails, exactly as `re.search` does. -/
def searchBrace : List Char → Option (List Char)
  | [] => Option.none
  | c :: rest =>
    if c = '\x7b' then (braceTail rest).map (fun b => '\x7b' :: b ++ ['\x7d'])
    else searchBrace rest

/-- The characters of a triple-backtick fence opener. -/
def plainFenceTag : List Char := "```".data

/-- The characters of a `json`-tagged fence opener. -/
def jsonFenceTag : List Char := "```json".data

/-- Does a closing fence (`\s*` + three backticks) start here?  Used for the
continuation of the lazy group in the fence patterns: `\s*` is followed by a
literal backtick, which is not whitespace, so backtracking inside `\s*` can
never help and the check is simply "skip whitespace, expect three
backticks". -/
def closesFence (cs : List Char) : Bool :=
  plainFenceTag.isPrefixOf (cs.dropWhile isPySpace)

/-- Interior of the lazy group in the fence patterns
(`(\{.*?\})\s*` + three backticks), scanned just after the opening brace: the
group ends at the first closing brace whose continuation matches a closing
fence; closing braces that are not followed by a closing fence are swallowed
by `.*?` as the lazy group grows. -/
def fenceClose : List Char → Option (List Char)
  | [] => Option.none
  | c :: rest =>
    if c = '\x7d' then
      if closesFence rest then Option.some []
      else (fenceClose rest).map (fun b => c :: b)
    else (fenceClose rest).map (fun b => c :: b)

/-- Leftmost match of a fenced-block pattern
(tag + `\s*(\{.*?\})\s*` + three backticks, under `re.DOTALL`), returning
group 1.  `re.search` tries start positions left to right; a match can only
start at an occurrence of the literal `tag`; after the tag, the greedy `\s*`
must end at the first non-whitespace character (the following `\{` can never
match whitespace), which must be an opening brace; the lazy group then ends at
the first viable closing brace (`fenceClose`).  If no closing brace is viable
the engine moves on to the next occurrence of the tag. -/
def searchFenceAux (tag : List Char) : List Char → Option (List Char)
  | [] => Option.none
  | c :: rest =>
    if tag.isPrefixOf (c :: rest) then
      match ((c :: rest).drop tag.length).dropWhile isPySpace with
      | '\x7b' :: inner =>
        match fenceClose inner with
        | Option.some body => Option.some ('\x7b' :: body ++ ['\x7d'])
        | Option.none => searchFenceAux tag rest
      | _ => searchFenceAux tag rest
    else searchFenceAux tag rest

namespace JSONParser

/-- Model of `JSONParser.parse_json`: `json.loads` with `JSONDecodeError`
mapped to `Option.none`. -/
def parse_json (text : List Char) : Option PyVal := jsonLoads text

/-- Model of `JSONParser.extract_from_markdown`: try the three patterns in
order — `json`-tagged fence, untagged fence, bare braces — and return group 1
of the first pattern that matches anywhere in the text. -/
def extract_from_markdown (text : List Char) : Option (List Char) :=
  match searchFenceAux jsonFenceTag text with
  | Option.some s => Option.some s
  | Option.none =>
    match searchFenceAux plainFenceTag text with
    | Option.some s => Option.some s
    | Option.none => searchBrace text

/-- Model of `JSONParser.smart_parse`: direct parse first, kept only when the
result is truthy; otherwise parse the markdown-extracted substring, kept only
when truthy; otherwise `None`.  The function is total: no exception escapes. -/
def smart_parse (text : List Char) : Option PyVal :=
  match parse_json text with
  | Option.some v =>
    if v.truthy then Option.some v else smartParseFallback text
  | Option.none => smartParseFallback text
where
  /-- The part of `smart_parse` after the failed or falsy direct parse. -/
  smartParseFallback (text : List Char) : Option PyVal :=
    match extract_from_markdown text with
    | Option.some s =>
      if s.isEmpty then Option.none
      else
        match parse_json s with
        | Option.some v => if v.truthy then Option.some v else Option.none
        | Option.none => Option.none
    | Option.none => Option.none

end JSONParser

/-- A Python exception kind, as far as this code base distinguishes them. -/
inductive PyErr where
  | typeError : PyErr
  | valueError : PyErr
  | keyError : PyErr
deriving DecidableEq

/-- A Python dict with string keys, in insertion order. -/
abbrev PyDict := List (String × PyVal)

/-- Model of `key in d` / `d[key]` lookup. -/
def pyLookup (d : PyDict) (k : String) : Option PyVal :=
  (d.find? (fun kv => kv.1 == k)).map Prod.snd

/-- Model of `d[key]`: raises `KeyError` when the key is absent. -/
def pyGet (d : PyDict) (k : String) : Except PyErr PyVal :=
  match pyLookup d k with
  | Option.some v => Except.ok v
  | Option.none => Except.error PyErr.keyError

/-- Modelled: decimal rendering of a float.  CPython prints the shortest
round-tripping decimal; no claim depends on the rendered digits, only on the
string being non-empty, which holds for every rendering. -/
def pyFloatRepr (q : ℚ) : String :=
  if q.den = 1 then toString q.num ++ ".0"
  else toString q.num ++ "/" ++ toString q.den

mutual

/-- Python `str(v)` (flag `false`) and `repr(v)` (flag `true`, used for
elements inside containers, where strings are quoted). -/
def pyStrF : Bool → PyVal → String
  | _, PyVal.none => "None"
  | _, PyVal.bool true => "True"
  | _, PyVal.bool false => "False"
  | _, PyVal.int n => toString n
  | _, PyVal.float q => pyFloatRepr q
  | true, PyVal.str s => "\x27" ++ s ++ "\x27"
  | false, PyVal.str s => s
  | _, PyVal.list xs => "[" ++ pyStrList xs ++ "]"
  | _, PyVal.dict kvs => "\x7b" ++ pyStrDict kvs ++ "\x7d"

/-- Comma-separated `repr`s of list elements. -/
def pyStrList : List PyVal → String
  | [] => ""
  | [x] => pyStrF true x
  | x :: y :: xs => pyStrF true x ++ ", " ++ pyStrList (y :: xs)

/-- Comma-separated `key: value` entries of a dict. -/
def pyStrDict : List (String × PyVal) → String
  | [] => ""
  | [(k, v)] => "\x27" ++ k ++ "\x27: " ++ pyStrF true v
  | (k, v) :: e :: rest =>
    "\x27" ++ k ++ "\x27: " ++ pyStrF true v ++ ", " ++ pyStrDict (e :: rest)

end

/-- Python `str(v)`. -/
def pyStr : PyVal → String := pyStrF false

/-- Python `s.strip()` with no argument: remove leading and trailing
whitespace (ASCII whitespace; the Unicode extras are not modelled). -/
def pyStrip (s : String) : String :=
  ⟨((s.data.dropWhile isPySpace).reverse.dropWhile isPySpace).reverse⟩

/-- The numeric part of Python `float(string)`:
`[sign] (digits [. digits] | . digits) [(e|E) [sign] digits]` after stripping
surrounding whitespace.  The `inf`/`nan` literals and underscore digit
separators are not modelled (no claim exercises string prices). -/
def floatDigitsPart (cs : List Char) : Option (ℚ × List Char) :=
  let ip := cs.takeWhile isDig
  let r1 := cs.dropWhile isDig
  match r1 with
  | '.' :: fr =>
    let fp := fr.takeWhile isDig
    let r2 := fr.dropWhile isDig
    if ip.isEmpty && fp.isEmpty then Option.none
    else Option.some ((natOfDigits ip : ℚ) + (natOfDigits fp : ℚ) / (10 : ℚ) ^ fp.length, r2)
  | _ => if ip.isEmpty then Option.none else Option.some ((natOfDigits ip : ℚ), r1)

/-- Python `float(string)`; `Option.none` is the `ValueError` outcome. -/
def floatOfStr (s : String) : Option ℚ :=
  let cs := (pyStrip s).data
  let p : Bool × List Char :=
    match cs with
    | '-' :: r => (true, r)
    | '+' :: r => (false, r)
    | _ => (false, cs)
  match floatDigitsPart p.2 with
  | Option.none => Option.none
  | Option.some (v, rest) =>
    match rest with
    | [] => Option.some ((if p.1 then -1 else 1) * v)
    | e :: r =>
      if e = 'e' ∨ e = 'E' then
        let pe : Bool × List Char :=
          match r with
          | '-' :: rr => (true, rr)
          | '+' :: rr => (false, rr)
          | _ => (false, r)
        let ds := pe.2.takeWhile isDig
        let r2 := pe.2.dropWhile isDig
        if ds.isEmpty || !r2.isEmpty then Option.none
        else Option.some ((if p.1 then -1 else 1) * v *
          pow10 ((if pe.1 then -1 else 1) * (natOfDigits ds : Int)))
      else Option.none

/-- Python `float(v)`: numbers and booleans convert, strings are parsed
(`ValueError` on failure), everything else raises `TypeError`. -/
def pyFloat : PyVal → Except PyErr ℚ
  | PyVal.int n => Except.ok (n : ℚ)
  | PyVal.float q => Except.ok q
  | PyVal.bool b => Except.ok (if b then 1 else 0)
  | PyVal.str s =>
    match floatOfStr s with
    | Option.some q => Except.ok q
    | Option.none => Except.error PyErr.valueError
  | PyVal.none => Except.error PyErr.typeError
  | PyVal.list _ => Except.error PyErr.typeError
  | PyVal.dict _ => Except.error PyErr.typeError

/-- Python `len(v)`: defined for strings, lists and dicts; raises `TypeError`
otherwise (in particular for numbers and booleans). -/
def pyLen : PyVal → Except PyErr ℕ
  | PyVal.str s => Except.ok s.length
  | PyVal.list xs => Except.ok xs.length
  | PyVal.dict kvs => Except.ok kvs.length
  | _ => Except.error PyErr.typeError

/-- Is the value a Python list (`isinstance(v, list)`). -/
def PyVal.isList : PyVal → Bool
  | PyVal.list _ => true
  | _ => false

/-- Is the value a Python str (`isinstance(v, str)`). -/
def PyVal.isStr : PyVal → Bool
  | PyVal.str _ => true
  | _ => false

/-- The `for field in required_fields` loop shared by both validators: the
first missing field's error message, or `Option.none` when all are present. -/
def checkRequired (d : PyDict) : List String → Option String
  | [] => Option.none
  | f :: fs =>
    if (pyLookup d f).isSome then checkRequired d fs
    else Option.some ("Missing required field: " ++ f)

/-- Model of `validate_product_data`: field presence, non-empty stripped name,
price convertible by `float` and non-negative, non-empty stripped image path.
An `Except.error` is an uncaught exception (the source catches only the
`ValueError`/`TypeError` of the `float` call). -/
def validate_product_data (product : PyDict) : Except PyErr (Bool × Option String) :=
  match checkRequired product ["id", "name", "price", "category", "image_path"] with
  | Option.some msg => Except.ok (false, Option.some msg)
  | Option.none =>
    match pyGet product "name" with
    | Except.error e => Except.error e
    | Except.ok name =>
      if !name.truthy || (pyStrip (pyStr name) == "") then
        Except.ok (false, Option.some "Product name cannot be empty")
      else
        match pyGet product "price" with
        | Except.error e => Except.error e
        | Except.ok pv =>
          match pyFloat pv with
          | Except.error _ => Except.ok (false, Option.some "Price must be a valid number")
          | Except.ok price =>
            if price < 0 then Except.ok (false, Option.some "Price cannot be negative")
            else
              match pyGet product "image_path" with
              | Except.error e => Except.error e
              | Except.ok ip =>
                if !ip.truthy || (pyStrip (pyStr ip) == "") then
                  Except.ok (false, Option.some "Image path cannot be empty")
                else Except.ok (true, Option.none)

/-- Model of `validate_listing_data`: field presence, then
`not data['title'] or len(data['title']) > 100` and the analogous description,
features and keywords checks, with Python's short-circuit evaluation.  The
`len` calls are guarded only by truthiness, not by an `isinstance` check, so
they can raise `TypeError`. -/
def validate_listing_data (data : PyDict) : Except PyErr (Bool × Option String) :=
  match checkRequired data ["title", "description", "features", "keywords"] with
  | Option.some msg => Except.ok (false, Option.some msg)
  | Option.none =>
    match pyGet data "title" with
    | Except.error e => Except.error e
    | Except.ok title =>
      if !title.truthy then Except.ok (false, Option.some "Title must be 1-100 characters")
      else
        match pyLen title with
        | Except.error e => Except.error e
        | Except.ok tl =>
          if tl > 100 then Except.ok (false, Option.some "Title must be 1-100 characters")
          else
            match pyGet data "description" with
            | Except.error e => Except.error e
            | Except.ok desc =>
              if !desc.truthy then
                Except.ok (false, Option.some "Description must be at least 50 characters")
              else
                match pyLen desc with
                | Except.error e => Except.error e
                | Except.ok dl =>
                  if dl < 50 then
                    Except.ok (false, Option.some "Description must be at least 50 characters")
                  else
                    match pyGet data "features" with
                    | Except.error e => Except.error e
                    | Except.ok feats =>
                      if !feats.isList then
                        Except.ok (false, Option.some "Features must be a non-empty list")
                      else
                        match pyLen feats with
                        | Except.error e => Except.error e
                        | Except.ok fl =>
                          if fl = 0 then
                            Except.ok (false, Option.some "Features must be a non-empty list")
                          else
                            match pyGet data "keywords" with
                            | Except.error e => Except.error e
                            | Except.ok kw =>
                              if !kw.truthy || !kw.isStr then
                                Except.ok (false, Option.some "Keywords must be a non-empty string")
                              else Except.ok (true, Option.none)

/-- Round a rational to the nearest integer, ties to even: the rounding CPython
applies when formatting a float with `:.2f` (the format operates on the exact
binary value, here modelled as the exact rational). -/
def rhe (x : ℚ) : Int :=
  if x - ⌊x⌋ < 1 / 2 then ⌊x⌋
  else if 1 / 2 < x - ⌊x⌋ then ⌊x⌋ + 1
  else if ⌊x⌋ % 2 = 0 then ⌊x⌋ else ⌊x⌋ + 1

/-- Two-decimal fixed-point rendering, the model of the f-string `{price:.2f}`:
round `100 · price` to the nearest integer (ties to even) and print it with the
last two digits after a decimal point.  (For a negative value rounding to zero
CPython prints `-0.00`; this model prints `0.00`; no claim involves one.) -/
def fmtFixed2 (q : ℚ) : String :=
  let n := rhe (q * 100)
  let m := n.natAbs
  (if n < 0 then "-" else "") ++ toString (m / 100) ++ "." ++
    (if m % 100 < 10 then "0" else "") ++ toString (m % 100)

/-- Model of `format_price`: the currency symbol followed by the price
formatted to two decimals. -/
def format_price (price : ℚ) (currency : String := "$") : String :=
  currency ++ fmtFixed2 price

/-- Python `sum(numbers)`: left fold of addition starting at `0`. -/
def pySum (l : List ℚ) : ℚ := l.foldl (· + ·) 0

/-- Python `min(numbers)` on a non-empty list. -/
def pyMinList (x : ℚ) (xs : List ℚ) : ℚ := xs.foldl min x

/-- Python `max(numbers)` on a non-empty list. -/
def pyMaxList (x : ℚ) (xs : List ℚ) : ℚ := xs.foldl max x

/-- Model of `calculate_statistics`: the empty dict for an empty list,
otherwise the count/sum/mean/min/max dict (in insertion order). -/
def calculate_statistics (numbers : List ℚ) : List (String × ℚ) :=
  match numbers with
  | [] => []
  | x :: xs =>
    [("count", ((x :: xs).length : ℚ)),
     ("sum", pySum (x :: xs)),
     ("mean", pySum (x :: xs) / ((x :: xs).length : ℚ)),
     ("min", pyMinList x xs),
     ("max", pyMaxList x xs)]

/-- Model of `batch_items`:
`[items[i:i + batch_size] for i in range(0, len(items), batch_size)]`.
`range(0, L, n)` for `n > 0` is `[0, n, 2n, ...]` below `L`, i.e. `⌈L/n⌉`
terms; the slice `items[i:i + n]` is `take n` of `drop i`.  (For
`batch_size = 0` Python raises `ValueError`; this model returns `[]`; both
claims about batching use a positive batch size.) -/
def batch_items {α : Type _} (items : List α) (batch_size : ℕ) : List (List α) :=
  (List.range' 0 ((items.length + batch_size - 1) / batch_size) batch_size).map
    (fun i => (items.drop i).take batch_size)

/-- Written from the spec's words, not from the code, for comparison with the
code's behaviour: the greedy brace-delimited match, from the first opening
brace of the text to the last closing brace. -/
def greedySpan (cs : List Char) : Option (List Char) :=
  match cs.findIdx? (fun c => c = '\x7b'), cs.reverse.findIdx? (fun c => c = '\x7d') with
  | Option.some i, Option.some jr =>
    let j := cs.length - 1 - jr
    if i ≤ j then Option.some ((cs.drop i).take (j - i + 1)) else Option.none
  | _, _ => Option.none

lemma mem_of_mem_dropWhile {α : Type _} {p : α → Bool} {a : α} :
    ∀ {l : List α}, a ∈ l.dropWhile p → a ∈ l := by
  intro l
  induction l with
  | nil => intro h; exact h
  | cons c rest ih =>
    intro h
    rw [List.dropWhile_cons] at h
    by_cases hc : p c = true
    · rw [if_pos hc] at h
      exact List.mem_cons_of_mem c (ih h)
    · rw [if_neg hc] at h
      exact h

lemma mem_of_mem_drop {α : Type _} {a : α} :
    ∀ {n : ℕ} {l : List α}, a ∈ l.drop n → a ∈ l := by
  intro n
  induction n with
  | zero => intro l h; simpa using h
  | succ m ih =>
    intro l h
    cases l with
    | nil => exact h
    | cons c rest => exact List.mem_cons_of_mem c (ih h)

lemma braceTail_decomp (mid post : List Char) (h : '\x7d' ∉ mid) :
    braceTail (mid ++ '\x7d' :: post) = Option.some mid := by
  induction mid with
  | nil => simp [braceTail]
  | cons c ms ih =>
    have hc : c ≠ '\x7d' := fun hc => h (hc ▸ List.mem_cons_self c ms)
    have hm : '\x7d' ∉ ms := fun hm => h (List.mem_cons_of_mem _ hm)
    simp [braceTail, hc, ih hm]

/-- The bare-brace pattern finds exactly the lazy span: from the first opening
brace to the first closing brace after it. -/
lemma searchBrace_decomp (pre mid post : List Char)
    (hpre : '\x7b' ∉ pre) (hmid : '\x7d' ∉ mid) :
    searchBrace (pre ++ '\x7b' :: mid ++ '\x7d' :: post)
      = Option.some ('\x7b' :: mid ++ ['\x7d']) := by
  induction pre with
  | nil => simp [searchBrace, braceTail_decomp mid post hmid]
  | cons c cs ih =>
    have hc : c ≠ '\x7b' := fun hc => hpre (hc ▸ List.mem_cons_self c cs)
    have hcs : '\x7b' ∉ cs := fun hm => hpre (List.mem_cons_of_mem _ hm)
    simp only [List.cons_append, searchBrace, if_neg hc]
    exact ih hcs

lemma searchBrace_none {cs : List Char} (h : '\x7b' ∉ cs) :
    searchBrace cs = Option.none := by
  induction cs with
  | nil => rfl
  | cons c rest ih =>
    have hc : c ≠ '\x7b' := fun hc => h (hc ▸ List.mem_cons_self c rest)
    have hr : '\x7b' ∉ rest := fun hm => h (List.mem_cons_of_mem _ hm)
    simp only [searchBrace, if_neg hc]
    exact ih hr

/-- A fence pattern cannot match in text containing no backtick. -/
lemma searchFenceAux_none_of_no_tick {tag t0 : List Char} (htag : tag = '\x60' :: t0) :
    ∀ {cs : List Char}, '\x60' ∉ cs → searchFenceAux tag cs = Option.none := by
  intro cs
  induction cs with
  | nil => intro _; rfl
  | cons c rest ih =>
    intro h
    have hc : ('\x60' : Char) ≠ c := fun hc => h (hc.symm ▸ List.mem_cons_self c rest)
    have hr : '\x60' ∉ rest := fun hm => h (List.mem_cons_of_mem _ hm)
    have hpre : tag.isPrefixOf (c :: rest) = false := by
      rw [htag]
      simp [List.isPrefixOf, hc]
    rw [searchFenceAux, hpre]
    simp only [Bool.false_eq_true, if_false]
    exact ih hr

/-- A fence pattern cannot match in text containing no opening brace. -/
lemma searchFenceAux_none_of_no_brace {tag : List Char} :
    ∀ {cs : List Char}, '\x7b' ∉ cs → searchFenceAux tag cs = Option.none := by
  intro cs
  induction cs with
  | nil => intro _; rfl
  | cons c rest ih =>
    intro h
    have hr : '\x7b' ∉ rest := fun hm => h (List.mem_cons_of_mem _ hm)
    rw [searchFenceAux]
    by_cases hpre : tag.isPrefixOf (c :: rest)
    · rw [if_pos hpre]
      split
      · rename_i inner heq
        exfalso
        apply h
        apply mem_of_mem_drop (n := tag.length)
        apply mem_of_mem_dropWhile (p := isPySpace)
        rw [heq]
        exact List.mem_cons_self _ _
      · exact ih hr
    · rw [if_neg hpre]
      exact ih hr

lemma extract_from_markdown_none_of_no_brace {t : List Char} (h : '\x7b' ∉ t) :
    JSONParser.extract_from_markdown t = Option.none := by
  rw [JSONParser.extract_from_markdown]
  rw [searchFenceAux_none_of_no_brace h, searchFenceAux_none_of_no_brace h,
    searchBrace_none h]

lemma extract_from_markdown_eq_searchBrace {t : List Char} (htick : '\x60' ∉ t) :
    JSONParser.extract_from_markdown t = searchBrace t := by
  rw [JSONParser.extract_from_markdown]
  rw [searchFenceAux_none_of_no_tick
      (show jsonFenceTag = '\x60' :: "``json".data from rfl) htick,
    searchFenceAux_none_of_no_tick
      (show plainFenceTag = '\x60' :: "``".data from rfl) htick]

lemma smart_parse_eq_fallback {t : List Char}
    (hdir : ∀ w, JSONParser.parse_json t = Option.some w → w.truthy = false) :
    JSONParser.smart_parse t = JSONParser.smart_parse.smartParseFallback t := by
  rw [JSONParser.smart_parse]
  cases hp : JSONParser.parse_json t with
  | none => rfl
  | some w => simp [hdir w hp]

/-- C1, counterexample to the claim as stated: in the input
`x{"a": {"b": 1}}` the span from the first opening brace to the last closing
brace (the spec's greedy match, `greedySpan`) is the valid JSON object
`{"a": {"b": 1}}`, while the first-to-first span is not valid JSON, yet
`smart_parse` returns the failure signal `None` instead of that object: the
code's third pattern is the lazy `(\{.*?\})`, not a greedy match. -/
theorem claimC1_counterexample :
    greedySpan ("x\x7b\"a\": \x7b\"b\": 1\x7d\x7d".data)
        = Option.some ("\x7b\"a\": \x7b\"b\": 1\x7d\x7d".data) ∧
    JSONParser.parse_json ("\x7b\"a\": \x7b\"b\": 1\x7d\x7d".data)
        = Option.some (PyVal.dict [("a", PyVal.dict [("b", PyVal.int 1)])]) ∧
    JSONParser.smart_parse ("x\x7b\"a\": \x7b\"b\": 1\x7d\x7d".data) = Option.none :=
  ⟨rfl, rfl, rfl⟩

/-- C1, amended: when direct parsing and both fenced-block searches fail, the
fallback step selects the substring from the first opening brace to the FIRST
following closing brace (a lazy brace-delimited match) and attempts to parse
that substring; for any input without backticks whose direct parse fails (or
is falsy) and whose first-open-to-first-close span parses to a truthy JSON
object, the extractor returns that object. -/
theorem claimC1_amended (t pre mid post : List Char) (v : PyVal)
    (ht : t = pre ++ '\x7b' :: mid ++ '\x7d' :: post)
    (hpre : '\x7b' ∉ pre) (hmid : '\x7d' ∉ mid)
    (htick : '\x60' ∉ t)
    (hdir : ∀ w, JSONParser.parse_json t = Option.some w → w.truthy = false)
    (hparse : JSONParser.parse_json ('\x7b' :: mid ++ ['\x7d']) = Option.some v)
    (htr : v.truthy = true) :
    JSONParser.smart_parse t = Option.some v := by
  rw [smart_parse_eq_fallback hdir]
  rw [JSONParser.smart_parse.smartParseFallback]
  rw [extract_from_markdown_eq_searchBrace htick]
  rw [ht, searchBrace_decomp pre mid post hpre hmid]
  simp only [List.cons_append] at hparse
  simp [hparse, htr]

/-- C1, witness for the amended theorem at the concrete input `x{"a": 1} y`. -/
theorem claimC1_witness :
    JSONParser.smart_parse ("x\x7b\"a\": 1\x7d y".data)
      = Option.some (PyVal.dict [("a", PyVal.int 1)]) := by
  apply claimC1_amended ("x\x7b\"a\": 1\x7d y".data) ("x".data) ("\"a\": 1".data)
    (" y".data) (PyVal.dict [("a", PyVal.int 1)]) rfl (by decide) (by decide) (by decide)
  · intro w hw
    rw [show JSONParser.parse_json ("x\x7b\"a\": 1\x7d y".data) = Option.none from rfl] at hw
    exact Option.noConfusion hw
  · rfl
  · rfl

/-- C3, counterexample to the claim as stated: the input `3` contains no
brace-delimited substring, yet `smart_parse` does not return the failure
signal: the direct parse succeeds with the truthy value `3`, which is
returned. -/
theorem claimC3_counterexample :
    ('\x7b' ∉ "3".data) ∧
    JSONParser.smart_parse ("3".data) = Option.some (PyVal.int 3) :=
  ⟨by decide, rfl⟩

/-- C3, amended: for every input on which all extraction attempts fail, the
extractor returns the failure signal `None` (and, being a total function, no
exception escapes): whenever the direct parse fails or yields a falsy value,
and either the text contains no opening brace at all or whatever substring the
markdown extraction locates also fails to parse (or parses to a falsy value),
`smart_parse` returns `None`.  The original claim's instance for texts with no
brace-delimited substring must additionally assume the text is not itself
truthy JSON (see the counterexample `3`). -/
theorem claimC3_amended (t : List Char)
    (hdir : ∀ w, JSONParser.parse_json t = Option.some w → w.truthy = false)
    (hrest : '\x7b' ∉ t ∨
      ∀ s w, JSONParser.extract_from_markdown t = Option.some s →
        JSONParser.parse_json s = Option.some w → w.truthy = false) :
    JSONParser.smart_parse t = Option.none := by
  rw [smart_parse_eq_fallback hdir]
  rw [JSONParser.smart_parse.smartParseFallback]
  rcases hrest with hnb | hext
  · rw [extract_from_markdown_none_of_no_brace hnb]
  · cases he : JSONParser.extract_from_markdown t with
    | none => rfl
    | some s =>
      by_cases hs : s.isEmpty
      · simp [hs]
      · simp only [hs, Bool.false_eq_true, if_false]
        cases hp : JSONParser.parse_json s with
        | none => rfl
        | some w => simp [hext s w he hp]

/-- C3, witness for the amended theorem at the concrete brace-free input
`hello`. -/
theorem claimC3_witness : JSONParser.smart_parse ("hello".data) = Option.none := by
  apply claimC3_amended ("hello".data)
  · intro w hw
    rw [show JSONParser.parse_json ("hello".data) = Option.none from rfl] at hw
    exact Option.noConfusion hw
  · exact Or.inl (by decide)

/-- C4: wrapping the serialized object `{"a": 1}` in a triple-backtick fenced
block, with a `json` language tag or with no tag, and feeding the wrapped text
to `smart_parse` yields the original object. -/
theorem claimC4_roundtrip :
    JSONParser.smart_parse ("```json\n\x7b\"a\": 1\x7d\n```".data)
        = Option.some (PyVal.dict [("a", PyVal.int 1)]) ∧
    JSONParser.smart_parse ("```\n\x7b\"a\": 1\x7d\n```".data)
        = Option.some (PyVal.dict [("a", PyVal.int 1)]) :=
  ⟨rfl, rfl⟩

/-- C5: `{}` is a syntactically valid JSON empty object — `parse_json` accepts
it — but the empty dict is falsy, every successful parse is re-checked by
truthiness, and `smart_parse` therefore returns the failure signal `None`:
the failure signal is indistinguishable from extracting an empty object. -/
theorem claimC5_empty_object :
    JSONParser.parse_json ("\x7b\x7d".data) = Option.some (PyVal.dict []) ∧
    (PyVal.dict []).truthy = false ∧
    JSONParser.smart_parse ("\x7b\x7d".data) = Option.none :=
  ⟨rfl, rfl, rfl⟩

lemma checkRequired_none_isSome {d : PyDict} :
    ∀ {fs : List String} {f : String}, checkRequired d fs = Option.none → f ∈ fs →
      (pyLookup d f).isSome = true := by
  intro fs
  induction fs with
  | nil => intro f _ hm; cases hm
  | cons g gs ih =>
    intro f hc hm
    rw [checkRequired] at hc
    by_cases hg : (pyLookup d g).isSome = true
    · rw [if_pos hg] at hc
      rcases List.mem_cons.mp hm with rfl | hm2
      · exact hg
      · exact ih hc hm2
    · rw [if_neg hg] at hc
      exact Option.noConfusion hc

lemma pyLen_ok_of_isList {v : PyVal} (h : v.isList = true) :
    ∃ n, pyLen v = Except.ok n := by
  cases v <;> simp [PyVal.isList] at h ⊢
  exact ⟨_, rfl⟩

/-- C2, counterexample to the claim as stated: a listing dict whose `title` is
the truthy number `1` makes `validate_listing_data` evaluate `len(1)`, which
raises `TypeError` — the function does not return a boolean-plus-message pair
for dictionaries of arbitrary value types. -/
theorem claimC2_counterexample :
    validate_listing_data
      [("title", PyVal.int 1), ("description", PyVal.str "x"),
       ("features", PyVal.list [PyVal.str "f"]), ("keywords", PyVal.str "k")]
      = Except.error PyErr.typeError := rfl

lemma exists_ok_of_isOk {ε α : Type _} {x : Except ε α} (h : x.isOk = true) :
    ∃ r, x = Except.ok r := by
  cases x with
  | ok r => exact ⟨r, rfl⟩
  | error e => simp [Except.isOk, Except.toBool] at h

lemma pyGet_ok_lookup {d : PyDict} {k : String} {v : PyVal}
    (h : pyGet d k = Except.ok v) : pyLookup d k = Option.some v := by
  rw [pyGet] at h
  cases hl : pyLookup d k with
  | some w => rw [hl] at h; cases h; rfl
  | none => rw [hl] at h; exact Except.noConfusion h

lemma pyGet_not_error {d : PyDict} {k : String} (h : (pyLookup d k).isSome = true)
    {e : PyErr} (he : pyGet d k = Except.error e) : False := by
  rw [pyGet] at he
  cases hl : pyLookup d k with
  | some w => rw [hl] at he; exact Except.noConfusion he
  | none => rw [hl] at h; simp at h

/-- C2, amended: `validate_product_data` returns a `(boolean, message)` pair
and never raises, for every input dictionary of any shape; the same holds for
`validate_listing_data` only under the additional assumption that the values
stored under `title` and under `description` (when present) support `len` —
i.e. are strings, lists or dicts — because the code applies `len` to them
guarded only by a truthiness test, not by an `isinstance` check. -/
theorem claimC2_amended (d : PyDict) :
    (∃ r, validate_product_data d = Except.ok r) ∧
    ((∀ v, pyLookup d "title" = Option.some v → ∃ n, pyLen v = Except.ok n) →
     (∀ v, pyLookup d "description" = Option.some v → ∃ n, pyLen v = Except.ok n) →
     ∃ r, validate_listing_data d = Except.ok r) := by
  constructor
  · apply exists_ok_of_isOk
    rw [validate_product_data]
    split
    · rfl
    · rename_i hc
      split
      · rename_i e he
        exact absurd (pyGet_not_error
          (checkRequired_none_isSome (f := "name") hc (by simp)) he) id
      · split
        · rfl
        · split
          · rename_i e he
            exact absurd (pyGet_not_error
              (checkRequired_none_isSome (f := "price") hc (by simp)) he) id
          · split
            · rfl
            · split
              · rfl
              · split
                · rename_i e he
                  exact absurd (pyGet_not_error
                    (checkRequired_none_isSome (f := "image_path") hc (by simp)) he) id
                · split
                  · rfl
                  · rfl
  · intro htitle hdesc
    apply exists_ok_of_isOk
    rw [validate_listing_data]
    split
    · rfl
    · rename_i hc
      split
      · rename_i e he
        exact absurd (pyGet_not_error
          (checkRequired_none_isSome (f := "title") hc (by simp)) he) id
      · rename_i title hti
        split
        · rfl
        · split
          · rename_i e he
            obtain ⟨n, hn⟩ := htitle title (pyGet_ok_lookup hti)
            rw [hn] at he
            exact Except.noConfusion he
          · split
            · rfl
            · split
              · rename_i e he
                exact absurd (pyGet_not_error
                  (checkRequired_none_isSome (f := "description") hc (by simp)) he) id
              · rename_i desc hde
                split
                · rfl
                · split
                  · rename_i e he
                    obtain ⟨n, hn⟩ := hdesc desc (pyGet_ok_lookup hde)
                    rw [hn] at he
                    exact Except.noConfusion he
                  · split
                    · rfl
                    · split
                      · rename_i e he
                        exact absurd (pyGet_not_error
                          (checkRequired_none_isSome (f := "features") hc (by simp)) he) id
                      · rename_i feats hfe
                        split
                        · rfl
                        · rename_i hlist
                          split
                          · rename_i e he
                            obtain ⟨n, hn⟩ := pyLen_ok_of_isList
                              (v := feats) (by revert hlist; cases feats.isList <;> simp)
                            rw [hn] at he
                            exact Except.noConfusion he
                          · split
                            · rfl
                            · split
                              · rename_i e he
                                exact absurd (pyGet_not_error
                                  (checkRequired_none_isSome (f := "keywords") hc (by simp)) he) id
                              · split
                                · rfl
                                · rfl

/-- C2, witness for the amended theorem at a concrete dictionary. -/
theorem claimC2_witness :
    (∃ r, validate_product_data [("title", PyVal.str "T")] = Except.ok r) ∧
    (∃ r, validate_listing_data [("title", PyVal.str "T")] = Except.ok r) := by
  refine ⟨(claimC2_amended [("title", PyVal.str "T")]).1,
    (claimC2_amended [("title", PyVal.str "T")]).2 ?_ ?_⟩
  · intro v hv
    rw [show pyLookup [("title", PyVal.str "T")] "title" = Option.some (PyVal.str "T")
      from rfl] at hv
    cases hv
    exact ⟨_, rfl⟩
  · intro v hv
    rw [show pyLookup [("title", PyVal.str "T")] "description" = Option.none
      from rfl] at hv
    exact Option.noConfusion hv

/-- C6: every product dictionary with the five required fields, a string name
that is non-empty after stripping whitespace, a numeric (int or float)
non-negative price, and a string image path that is non-empty after stripping
whitespace validates successfully with no message. -/
theorem claimC6_valid_product (d : PyDict) (nm ip : String) (pv : PyVal)
    (hid : (pyLookup d "id").isSome = true)
    (hcat : (pyLookup d "category").isSome = true)
    (hname : pyLookup d "name" = Option.some (PyVal.str nm))
    (hnm : pyStrip nm ≠ "")
    (hprice : pyLookup d "price" = Option.some pv)
    (hnum : (∃ z : Int, pv = PyVal.int z ∧ 0 ≤ z) ∨ (∃ q : ℚ, pv = PyVal.float q ∧ 0 ≤ q))
    (himg : pyLookup d "image_path" = Option.some (PyVal.str ip))
    (hip : pyStrip ip ≠ "") :
    validate_product_data d = Except.ok (true, Option.none) := by
  have hnm0 : nm ≠ "" := fun h => hnm (by rw [h]; rfl)
  have hip0 : ip ≠ "" := fun h => hip (by rw [h]; rfl)
  have hcr : checkRequired d ["id", "name", "price", "category", "image_path"]
      = Option.none := by
    simp [checkRequired, hid, hcat, hname, hprice, himg]
  rcases hnum with ⟨z, rfl, hz⟩ | ⟨q, rfl, hq⟩
  · have hlt : ¬ ((z : ℚ) < 0) := not_lt.mpr (by exact_mod_cast hz)
    simp [validate_product_data, hcr, pyGet, hname, hprice, himg,
      pyFloat, PyVal.truthy, pyStr, pyStrF, hnm0, hnm, hip0, hip, hlt]
  · have hlt : ¬ (q < 0) := not_lt.mpr hq
    simp [validate_product_data, hcr, pyGet, hname, hprice, himg,
      pyFloat, PyVal.truthy, pyStr, pyStrF, hnm0, hnm, hip0, hip, hlt]

/-- C6, witness at a concrete valid product dictionary. -/
theorem claimC6_witness :
    validate_product_data
      [("id", PyVal.int 1), ("name", PyVal.str "Lamp"), ("price", PyVal.int 5),
       ("category", PyVal.str "home"), ("image_path", PyVal.str "a.png")]
      = Except.ok (true, Option.none) := by
  apply claimC6_valid_product
    [("id", PyVal.int 1), ("name", PyVal.str "Lamp"), ("price", PyVal.int 5),
     ("category", PyVal.str "home"), ("image_path", PyVal.str "a.png")]
    "Lamp" "a.png" (PyVal.int 5) rfl rfl rfl
    (by decide) rfl (Or.inl ⟨5, rfl, by decide⟩) rfl (by decide)

/-- C7: every product dictionary with the five required fields, a valid name,
and a numeric price strictly below zero fails validation with the message
indicating the negative-price condition.  ("Non-empty name" is read as in C6:
non-empty after stripping whitespace, i.e. a name that passes the name
check.) -/
theorem claimC7_negative_price (d : PyDict) (nm : String) (pv : PyVal)
    (hid : (pyLookup d "id").isSome = true)
    (hcat : (pyLookup d "category").isSome = true)
    (himg : (pyLookup d "image_path").isSome = true)
    (hname : pyLookup d "name" = Option.some (PyVal.str nm))
    (hnm : pyStrip nm ≠ "")
    (hprice : pyLookup d "price" = Option.some pv)
    (hneg : (∃ z : Int, pv = PyVal.int z ∧ z < 0) ∨ (∃ q : ℚ, pv = PyVal.float q ∧ q < 0)) :
    validate_product_data d = Except.ok (false, Option.some "Price cannot be negative") := by
  have hnm0 : nm ≠ "" := fun h => hnm (by rw [h]; rfl)
  have hcr : checkRequired d ["id", "name", "price", "category", "image_path"]
      = Option.none := by
    simp [checkRequired, hid, hcat, himg, hname, hprice]
  rcases hneg with ⟨z, rfl, hz⟩ | ⟨q, rfl, hq⟩
  · have hlt : ((z : ℚ) < 0) := by exact_mod_cast hz
    simp [validate_product_data, hcr, pyGet, hname, hprice,
      pyFloat, PyVal.truthy, pyStr, pyStrF, hnm0, hnm, hlt]
  · simp [validate_product_data, hcr, pyGet, hname, hprice,
      pyFloat, PyVal.truthy, pyStr, pyStrF, hnm0, hnm, hq]

/-- C7, witness at a concrete product dictionary with price `-10`. -/
theorem claimC7_witness :
    validate_product_data
      [("id", PyVal.int 1), ("name", PyVal.str "Lamp"), ("price", PyVal.int (-10)),
       ("category", PyVal.str "home"), ("image_path", PyVal.str "a.png")]
      = Except.ok (false, Option.some "Price cannot be negative") := by
  apply claimC7_negative_price
    [("id", PyVal.int 1), ("name", PyVal.str "Lamp"), ("price", PyVal.int (-10)),
     ("category", PyVal.str "home"), ("image_path", PyVal.str "a.png")]
    "Lamp" (PyVal.int (-10)) rfl rfl rfl rfl
    (by decide) rfl (Or.inl ⟨-10, rfl, by decide⟩)

lemma range'_map_slice_shift {α : Type _} (k n : ℕ) (l : List α) :
    ∀ (c a b : ℕ), (List.range' (a + b) c n).map (fun i => (l.drop i).take k)
      = (List.range' b c n).map (fun i => ((l.drop a).drop i).take k) := by
  intro c
  induction c with
  | zero => intro a b; rfl
  | succ m ih =>
    intro a b
    rw [List.range'_succ, List.range'_succ, List.map_cons, List.map_cons]
    congr 1
    · rw [List.drop_drop]
    · rw [show a + b + n = a + (b + n) from by omega]
      exact ih a (b + n)

lemma batch_items_nil {α : Type _} (n : ℕ) : batch_items ([] : List α) n = [] := by
  rw [batch_items]
  have h0 : ((List.length ([] : List α)) + n - 1) / n = 0 := by
    cases n with
    | zero => simp
    | succ m => exact Nat.div_eq_of_lt (by simp)
  rw [h0]
  rfl

lemma batch_items_cons {α : Type _} (n : ℕ) (hn : 0 < n) (l : List α) (hl : l ≠ []) :
    batch_items l n = l.take n :: batch_items (l.drop n) n := by
  have hL : 1 ≤ l.length := List.length_pos.mpr hl
  rw [batch_items, batch_items]
  rw [show l.length + n - 1 = (l.length - 1) + n from by omega, Nat.add_div_right _ hn]
  rw [List.range'_succ, List.map_cons]
  have hcnt : ((l.drop n).length + n - 1) / n = (l.length - 1) / n := by
    rw [List.length_drop]
    by_cases hle : n ≤ l.length
    · rw [show l.length - n + n - 1 = l.length - 1 from by omega]
    · rw [Nat.div_eq_of_lt (by omega), Nat.div_eq_of_lt (by omega)]
  rw [hcnt]
  congr 1
  have h := range'_map_slice_shift n n l ((l.length - 1) / n) n 0
  simp only [Nat.add_zero, List.drop_drop] at h
  simp only [Nat.zero_add, List.drop_drop]
  exact h

lemma batch_items_flatten {α : Type _} (n : ℕ) (hn : 0 < n) (l : List α) :
    (batch_items l n).flatten = l := by
  have key : ∀ (N : ℕ) (l : List α), l.length ≤ N → (batch_items l n).flatten = l := by
    intro N
    induction N with
    | zero =>
      intro l hl
      have h0 : l = [] := List.eq_nil_of_length_eq_zero (by omega)
      rw [h0, batch_items_nil]
      rfl
    | succ N ih =>
      intro l hl
      by_cases h0 : l = []
      · rw [h0, batch_items_nil]; rfl
      · rw [batch_items_cons n hn l h0, List.flatten_cons,
          ih (l.drop n) (by rw [List.length_drop]; omega)]
        exact List.take_append_drop n l
  exact key l.length l le_rfl

/-- C8: batching a 25-element list with batch size 5 yields exactly 5 groups
of length 5, and batching a 10-element list with batch size 3 yields exactly
4 groups of lengths 3, 3, 3, 1; in both cases concatenating the groups in
order gives back the input (order preservation). -/
theorem claimC8_batching {α : Type _} (l25 l10 : List α)
    (h25 : l25.length = 25) (h10 : l10.length = 10) :
    ((batch_items l25 5).map List.length = [5, 5, 5, 5, 5] ∧
      (batch_items l25 5).flatten = l25) ∧
    ((batch_items l10 3).map List.length = [3, 3, 3, 1] ∧
      (batch_items l10 3).flatten = l10) := by
  refine ⟨⟨?_, batch_items_flatten 5 (by norm_num) l25⟩,
    ⟨?_, batch_items_flatten 3 (by norm_num) l10⟩⟩
  · have L1 : (l25.drop 5).length = 20 := by simp [List.length_drop, h25]
    have L2 : ((l25.drop 5).drop 5).length = 15 := by simp [List.length_drop, h25]
    have L3 : (((l25.drop 5).drop 5).drop 5).length = 10 := by
      simp [List.length_drop, h25]
    have L4 : ((((l25.drop 5).drop 5).drop 5).drop 5).length = 5 := by
      simp [List.length_drop, h25]
    have L5 : (((((l25.drop 5).drop 5).drop 5).drop 5).drop 5).length = 0 := by
      simp [List.length_drop, h25]
    rw [batch_items_cons 5 (by norm_num) _ (List.length_pos.mp (by omega)),
      batch_items_cons 5 (by norm_num) _ (List.length_pos.mp (by omega)),
      batch_items_cons 5 (by norm_num) _ (List.length_pos.mp (by omega)),
      batch_items_cons 5 (by norm_num) _ (List.length_pos.mp (by omega)),
      batch_items_cons 5 (by norm_num) _ (List.length_pos.mp (by omega)),
      List.eq_nil_of_length_eq_zero L5, batch_items_nil]
    simp [List.length_take, List.length_drop, h25]
  · have M1 : (l10.drop 3).length = 7 := by simp [List.length_drop, h10]
    have M2 : ((l10.drop 3).drop 3).length = 4 := by simp [List.length_drop, h10]
    have M3 : (((l10.drop 3).drop 3).drop 3).length = 1 := by
      simp [List.length_drop, h10]
    have M4 : ((((l10.drop 3).drop 3).drop 3).drop 3).length = 0 := by
      simp [List.length_drop, h10]
    rw [batch_items_cons 3 (by norm_num) _ (List.length_pos.mp (by omega)),
      batch_items_cons 3 (by norm_num) _ (List.length_pos.mp (by omega)),
      batch_items_cons 3 (by norm_num) _ (List.length_pos.mp (by omega)),
      batch_items_cons 3 (by norm_num) _ (List.length_pos.mp (by omega)),
      List.eq_nil_of_length_eq_zero M4, batch_items_nil]
    simp [List.length_take, List.length_drop, h10]

/-- C8, witness at the concrete lists `range 25` and `range 10`. -/
theorem claimC8_witness :
    ((batch_items (List.range 25) 5).map List.length = [5, 5, 5, 5, 5] ∧
      (batch_items (List.range 25) 5).flatten = List.range 25) ∧
    ((batch_items (List.range 10) 3).map List.length = [3, 3, 3, 1] ∧
      (batch_items (List.range 10) 3).flatten = List.range 10) :=
  claimC8_batching (List.range 25) (List.range 10) (by simp) (by simp)

/-- C9: statistics over the empty list is the empty dict (and no error is
raised: the function is total); over any non-empty list the result has exactly
the keys count, sum, mean, min and max, in order. -/
theorem claimC9_statistics :
    calculate_statistics [] = [] ∧
    ∀ l : List ℚ, l ≠ [] →
      (calculate_statistics l).map Prod.fst = ["count", "sum", "mean", "min", "max"] := by
  refine ⟨rfl, ?_⟩
  intro l hl
  cases l with
  | nil => exact absurd rfl hl
  | cons x xs => rfl

/-- C9, witness at the concrete list `[1, 2]`. -/
theorem claimC9_witness :
    (calculate_statistics [1, 2]).map Prod.fst = ["count", "sum", "mean", "min", "max"] :=
  claimC9_statistics.2 [1, 2] (List.cons_ne_nil 1 [2])

lemma rhe_intCast (z : ℤ) : rhe (z : ℚ) = z := by
  rw [rhe, Int.floor_intCast]
  norm_num

lemma rhe_eq_of_gt_half {x : ℚ} {f : ℤ} (hf : ⌊x⌋ = f) (h : 1/2 < x - (f : ℚ)) :
    rhe x = f + 1 := by
  rw [rhe, hf, if_neg (by linarith), if_pos h]

/-- C10: formatting the price 29.99 with currency symbol `$` yields exactly
`$29.99`.  The first conjunct takes 29.99 as the exact rational 2999/100; the
second takes the exact value of the IEEE-754 double nearest to 29.99
(8441434551552573 / 2^48, slightly below 29.99), which CPython's `:.2f`
rounds back up to the same string. -/
theorem claimC10_format_price :
    format_price (2999/100) "$" = "$29.99" ∧
    format_price (8441434551552573 / 281474976710656) "$" = "$29.99" := by
  constructor
  · have h1 : (2999/100 : ℚ) * 100 = ((2999 : ℤ) : ℚ) := by norm_num
    have h2 : rhe ((2999/100 : ℚ) * 100) = 2999 := by rw [h1, rhe_intCast]
    simp only [format_price, fmtFixed2, h2]
    decide
  · have hf : ⌊(8441434551552573 / 281474976710656 : ℚ) * 100⌋ = 2998 := by
      rw [Int.floor_eq_iff]
      constructor
      · push_cast
        norm_num
      · push_cast
        norm_num
    have h2 : rhe ((8441434551552573 / 281474976710656 : ℚ) * 100) = 2999 := by
      have h3 := rhe_eq_of_gt_half hf (by push_cast; norm_num)
      rw [show ((2998 : ℤ) + 1) = 2999 from by norm_num] at h3
      exact h3
    simp only [format_price, fmtFixed2, h2]
    decide
